import Mathlib

/-!
Verification of the grid blending engine of src/grdblend.c.

The embedding models the pure computational core of the blender over `ℚ`:

* the per-tile geometry set up by `grdblend_init_blend_job` (lines 527-539),
  together with the outside-region tests (lines 185-203, 399-418);
* the resampling decision (`grdblend_out_of_phase`, lines 144-157, and the
  increment test at lines 429-435, combined into `do_sample` at 423-457);
* the per-row synchronizer `grdblend_sync_input_rows` (lines 576-637);
* the per-cell compositor of the main loop of `GMT_grdblend`
  (lines 1013-1092).

Floating point is modelled by exact rationals.  The transcendental `cos` is
kept abstract as a parameter `cosF : ℚ → ℚ`, and `M_PI` as a parameter `pi`,
so every statement about taper weights holds for any interpretation of them.
`irint` (round to nearest) is modelled by `round`; ties (exact halves) round
up rather than to even, which no theorem below depends on.  NaN is modelled
by `Option ℚ` with `none` for NaN.  Division by zero yields `0` in `ℚ`
(where C floats would give `inf`); the only place this matters, the taper
coefficients of a degenerate tile, is discussed at the relevant claim.
-/

/-- Region boundaries (west, east, south, north): a `wesn` array of doubles. -/
structure GMTRegion where
  xlo : ℚ
  xhi : ℚ
  ylo : ℚ
  yhi : ℚ
  deriving DecidableEq

/-- The header data of a grid that the blending geometry reads: region,
increments, registration (0 node, 1 pixel) and the half-cell offset
`xy_off` (0.0 for node registration, 0.5 for pixel registration). -/
structure GridHeader where
  xlo : ℚ
  xhi : ℚ
  ylo : ℚ
  yhi : ℚ
  inc_x : ℚ
  inc_y : ℚ
  xy_off : ℚ
  registration : ℤ
  deriving DecidableEq

/-- The `wesn[side]` lookup with XLO = 0, XHI = 1, YLO = 2, YHI = 3. -/
def GridHeader.wesn (h : GridHeader) (side : Fin 4) : ℚ :=
  if side.val = 0 then h.xlo
  else if side.val = 1 then h.xhi
  else if side.val = 2 then h.ylo
  else h.yhi

/-- The `inc[way]` lookup with GMT_X = 0, GMT_Y = 1. -/
def GridHeader.inc (h : GridHeader) (way : Fin 2) : ℚ :=
  if way.val = 0 then h.inc_x else h.inc_y

/-- GMT_CONV8_LIMIT, 1.0e-8 (gmt_constants.h line 75). -/
def GMT_CONV8_LIMIT : ℚ := 1 / 100000000

/-- The per-side phase residual of `grdblend_out_of_phase` (line 150):
`fmod (fabs (((g->wesn[side] + g->xy_off * g->inc[way]) -
(h->wesn[side] + h->xy_off * h->inc[way])) / h->inc[way]), 1.0)` for the
nonnegative argument produced by `fabs`. -/
def grdblend_phase_frac (g h : GridHeader) (side : Fin 4) : ℚ :=
  let way : Fin 2 := ⟨side.val / 2, by omega⟩
  Int.fract |((g.wesn side + g.xy_off * g.inc way) -
              (h.wesn side + h.xy_off * h.inc way)) / h.inc way|

/-- grdblend_out_of_phase (lines 144-157): some side's residual escapes both
`a < GMT_CONV8_LIMIT` and `1 - a < GMT_CONV8_LIMIT`. -/
def grdblend_out_of_phase (g h : GridHeader) : Bool :=
  (List.finRange 4).any fun side =>
    let a := grdblend_phase_frac g h side
    !(decide (a < GMT_CONV8_LIMIT)) && !(decide (1 - a < GMT_CONV8_LIMIT))

/-- The increment compatibility test of lines 429-430:
`fabs((t->inc - h->inc) / h->inc) > 0.002` on either axis. -/
def grdblend_inc_mismatch (t h : GridHeader) : Bool :=
  decide (|(t.inc_x - h.inc_x) / h.inc_x| > 1 / 500) ||
  decide (|(t.inc_y - h.inc_y) / h.inc_y| > 1 / 500)

/-- The `do_sample` bitmask of lines 422-457: bit 2 when the native format
has no row-by-row io (line 424-428), bit 1 when the increments mismatch
(lines 429-435) or the tile is out of phase (lines 436-457). -/
def grdblend_do_sample (not_supported : Bool) (t h : GridHeader) : ℕ :=
  let ds : ℕ := 0
  let ds : ℕ := if not_supported then ds ||| 2 else ds
  let ds : ℕ := if grdblend_inc_mismatch t h then ds ||| 1 else ds
  let ds : ℕ := if grdblend_out_of_phase t h then ds ||| 1 else ds
  ds

/-- grdblend_outside_y_range (lines 185-193), with `h` the output header and
`wesn` the tile's inner region. -/
def grdblend_outside_y_range (h : GridHeader) (wesn : GMTRegion) : Bool :=
  if h.registration = 0 then
    decide (h.ylo > wesn.yhi) || decide (h.yhi < wesn.ylo)
  else
    decide (h.ylo ≥ wesn.yhi) || decide (h.yhi ≤ wesn.ylo)

/-- grdblend_outside_cartesian_x_range (lines 195-203). -/
def grdblend_outside_cartesian_x_range (h : GridHeader) (wesn : GMTRegion) : Bool :=
  if h.registration = 0 then
    decide (h.xlo > wesn.xhi) || decide (h.xhi < wesn.xlo) ||
    decide (h.ylo > wesn.yhi) || decide (h.yhi < wesn.ylo)
  else
    decide (h.xlo ≥ wesn.xhi) || decide (h.xhi ≤ wesn.xlo) ||
    decide (h.ylo ≥ wesn.yhi) || decide (h.yhi ≤ wesn.ylo)

/-- irint: round to the nearest integer. -/
def irint (x : ℚ) : ℤ := round x

/-- The index bounds and taper coefficients of one tile, the fields
`out_i0, in_i0, in_i1, out_i1, out_j0, in_j0, in_j1, out_j1` and
`wxl, wxr, wyu, wyd` of struct GRDBLEND_INFO. -/
structure TileGeom where
  out_i0 : ℤ
  in_i0 : ℤ
  in_i1 : ℤ
  out_i1 : ℤ
  out_j0 : ℤ
  in_j0 : ℤ
  in_j1 : ℤ
  out_j1 : ℤ
  wxl : ℚ
  wxr : ℚ
  wyu : ℚ
  wyd : ℚ
  deriving DecidableEq

/-- The geometry computation of grdblend_init_blend_job, lines 527-539.
`h` is the output header, `t` the tile header, `inner` the tile's inner
region `B[n].wesn`; `HH->r_inc` is the exact reciprocal increment and
`one_or_zero = !h->registration`. -/
def grdblend_tile_geometry (pi : ℚ) (h t : GridHeader) (inner : GMTRegion) : TileGeom :=
  let one_or_zero : ℤ := if h.registration = 0 then 1 else 0
  let r_inc_x : ℚ := 1 / h.inc_x
  let r_inc_y : ℚ := 1 / h.inc_y
  { out_i0 := irint ((t.xlo - h.xlo) * r_inc_x)
    in_i0 := irint ((inner.xlo - h.xlo) * r_inc_x) - 1
    in_i1 := irint ((inner.xhi - h.xlo) * r_inc_x) + one_or_zero
    out_i1 := irint ((t.xhi - h.xlo) * r_inc_x) - t.registration
    out_j0 := irint ((h.yhi - t.yhi) * r_inc_y)
    in_j0 := irint ((h.yhi - inner.yhi) * r_inc_y) - 1
    in_j1 := irint ((h.yhi - inner.ylo) * r_inc_y) + one_or_zero
    out_j1 := irint ((h.yhi - t.ylo) * r_inc_y) - t.registration
    wxl := pi * h.inc_x / (inner.xlo - t.xlo)
    wxr := pi * h.inc_x / (t.xhi - inner.xhi)
    wyu := pi * h.inc_y / (t.yhi - inner.yhi)
    wyd := pi * h.inc_y / (inner.ylo - t.ylo) }

/-- The all-zero geometry a skipped tile keeps (the calloc default). -/
def zeroGeom : TileGeom := ⟨0, 0, 0, 0, 0, 0, 0, 0, 0, 0, 0, 0⟩

/-- A tile's state after the per-tile pass of grdblend_init_blend_job for a
Cartesian grid already aligned with the output lattice: either skipped with
`ignore = true` (lines 403-418) or given its geometry (lines 527-539). -/
structure TileInit where
  ignore : Bool
  geom : TileGeom
  deriving DecidableEq

/-- The per-tile initialization path of grdblend_init_blend_job for a
Cartesian, lattice-aligned tile: the y-range skip test, the x-range skip
test, then the geometry computation. -/
def grdblend_init_tile (pi : ℚ) (h t : GridHeader) (inner : GMTRegion) : TileInit :=
  if grdblend_outside_y_range h inner then { ignore := true, geom := zeroGeom }
  else if grdblend_outside_cartesian_x_range h inner then { ignore := true, geom := zeroGeom }
  else { ignore := false, geom := grdblend_tile_geometry pi h t inner }

/-- The fields of struct GRDBLEND_INFO that grdblend_sync_input_rows reads
and writes for one tile.  `zFreed` records that the row buffer was released
and `fileDeleted` that the temporary file was removed (the observable
effects of the close branch, lines 585-593). -/
structure SyncTile where
  ignore : Bool
  outside : Bool
  isOpen : Bool
  memory : Bool
  del : Bool
  out_j0 : ℤ
  out_j1 : ℤ
  in_j0 : ℤ
  in_j1 : ℤ
  wyu : ℚ
  wyd : ℚ
  weight : ℚ
  wt_y : ℚ
  zFreed : Bool
  fileDeleted : Bool
  deriving DecidableEq

/-- One tile's transition in grdblend_sync_input_rows (lines 581-634) at
output row `row`, with `half = Grid->header->xy_off`: skip ignored tiles;
close (free the row buffer, delete a flagged temporary file) when the row
leaves [out_j0, out_j1]; otherwise compute the y taper weight times the
scalar weight and lazily open a file-backed tile. -/
def grdblend_sync_tile (cosF : ℚ → ℚ) (half : ℚ) (row : ℤ) (B : SyncTile) : SyncTile :=
  if B.ignore then B
  else if row < B.out_j0 ∨ row > B.out_j1 then
    let B1 := { B with outside := true }
    if B.isOpen then
      { B1 with isOpen := false, zFreed := true, fileDeleted := B1.fileDeleted || B.del }
    else B1
  else
    let wty : ℚ :=
      if row ≤ B.in_j0 then 1 / 2 * (1 - cosF (((row : ℚ) - (B.out_j0 : ℚ) + half) * B.wyu))
      else if row ≥ B.in_j1 then 1 / 2 * (1 - cosF (((B.out_j1 : ℚ) - (row : ℚ) + half) * B.wyd))
      else 1
    let B1 := { B with outside := false, wt_y := wty * B.weight }
    if B1.memory then B1
    else if B1.isOpen then B1
    else { B1 with isOpen := true }

/-- The whole row scan of the main loop applied to one tile: the
synchronizer is run once per output row, in order. -/
def grdblend_sync_scan (cosF : ℚ → ℚ) (half : ℚ) (rows : List ℤ) (B : SyncTile) : SyncTile :=
  rows.foldl (fun b r => grdblend_sync_tile cosF half r b) B

/-- The -C clobber mode: BLEND_UPPER 0, BLEND_LOWER 1, BLEND_FIRST 2,
BLEND_LAST 3 (lines 51-54). -/
inductive ClobberMode
  | upper
  | lower
  | first
  | last
  deriving DecidableEq

/-- The engine configuration the compositor reads from GRDBLEND_CTRL:
-C (clobber mode and sign filter), -W (weights output, with z variant) and
-Z (global scale). -/
structure BlendCtrl where
  C_active : Bool
  C_mode : ClobberMode
  C_sign : ℤ
  W_active : Bool
  W_mode : Bool
  Z_active : Bool
  Z_scale : ℚ
  deriving DecidableEq

/-- The fields of struct GRDBLEND_INFO that the per-cell compositor reads:
flags, column index bounds, x taper coefficients, the per-row weight `wt_y`
set by the synchronizer, and the current row vector `z` (through `zrow`,
with `none` for a NaN node). -/
structure CTile where
  ignore : Bool
  outside : Bool
  out_i0 : ℤ
  out_i1 : ℤ
  in_i0 : ℤ
  in_i1 : ℤ
  wxl : ℚ
  wxr : ℚ
  wt_y : ℚ
  weight : ℚ
  invert : Bool
  zrow : ℤ → Option ℚ

/-- The per-cell accumulator of the main loop: `z[col]`, the weight sum `w`,
the contributor count `m`, and the `not_nan` and `first_grid` flags
(lines 1015-1017). -/
structure CState where
  z : ℚ
  w : ℚ
  m : ℕ
  not_nan : Bool
  first_grid : Bool
  deriving DecidableEq

/-- The accumulator at the top of the column loop: `z[col]` starts from the
memset row of zeros, `w = 0.0`, `m = 0`, `first_grid = true`,
`not_nan = false`. -/
def initCState : CState := ⟨0, 0, 0, false, true⟩

/-- The value tile `B` offers at output column `col` of the current row, or
`none` when one of the `continue`s of lines 1019-1031 fires: the tile is
ignored, outside the row range, outside the column range, or its node is
NaN.  This is the non-periodic (`wrap_x = false`) column test with
`pcol = col`. -/
def grdblend_val (col : ℤ) (B : CTile) : Option ℚ :=
  if B.ignore then none
  else if B.outside then none
  else if col < B.out_i0 ∨ col > B.out_i1 then none
  else B.zrow (col - B.out_i0)

/-- The x-direction cosine taper weight of lines 1055-1060. -/
def grdblend_wt_x (cosF : ℚ → ℚ) (half : ℚ) (col : ℤ) (B : CTile) : ℚ :=
  if col ≤ B.in_i0 then
    1 / 2 * (1 - cosF (((col : ℚ) - (B.out_i0 : ℚ) + half) * B.wxl))
  else if col ≥ B.in_i1 then
    1 / 2 * (1 - cosF (((B.out_i1 : ℚ) - (col : ℚ) + half) * B.wxr))
  else 1

/-- The blending weight of one tile at one cell (lines 1061-1062): the 2-D
cosine taper `wt_x * wt_y`, inverted to `weight - wt` when the tile's
weight was given negative. -/
def grdblend_wt (cosF : ℚ → ℚ) (half : ℚ) (col : ℤ) (B : CTile) : ℚ :=
  let wt := grdblend_wt_x cosF half col B * B.wt_y
  if B.invert then B.weight - wt else wt

/-- The body of the tile loop once tile `B` has passed every skip test and
offers the non-NaN value `v` (lines 1032-1066): set `not_nan`, then either
the clobber update (lines 1033-1053) or the weighted blend accumulation
(lines 1054-1066). -/
def grdblend_accept (ctrl : BlendCtrl) (cosF : ℚ → ℚ) (half : ℚ) (col : ℤ)
    (s : CState) (B : CTile) (v : ℚ) : CState :=
  let s1 : CState := { s with not_nan := true }
  if ctrl.C_active then
    if (match ctrl.C_mode with
        | ClobberMode.first => decide (s1.m ≠ 0)
        | ClobberMode.upper => decide (s1.m ≠ 0) && decide (v ≤ s1.z)
        | ClobberMode.lower => decide (s1.m ≠ 0) && decide (s1.z ≤ v)
        | ClobberMode.last => false) then s1
    else if ctrl.C_sign = -1 then
      if s1.first_grid then { s1 with z := v, first_grid := false }
      else if v > 0 then s1
      else { s1 with z := v, w := 1, m := 1 }
    else if ctrl.C_sign = 1 then
      if s1.first_grid then { s1 with z := v, first_grid := false }
      else if v < 0 then s1
      else { s1 with z := v, w := 1, m := 1 }
    else { s1 with z := v, w := 1, m := 1 }
  else
    let wt := grdblend_wt cosF half col B
    { s1 with z := s1.z + wt * v, w := s1.w + wt, m := s1.m + 1 }

/-- One iteration of the tile loop (lines 1018-1067): a tile that fails a
skip test (`grdblend_val = none`) leaves the accumulator untouched. -/
def grdblend_process_tile (ctrl : BlendCtrl) (cosF : ℚ → ℚ) (half : ℚ) (col : ℤ)
    (s : CState) (B : CTile) : CState :=
  match grdblend_val col B with
  | none => s
  | some v => grdblend_accept ctrl cosF half col s B v

/-- The full tile loop for one cell, over the tile list in input order. -/
def grdblend_cell_loop (ctrl : BlendCtrl) (cosF : ℚ → ℚ) (half : ℚ) (col : ℤ)
    (tiles : List CTile) : CState :=
  tiles.foldl (grdblend_process_tile ctrl cosF half col) initCState

/-- The accumulator after the sign-filter seeding fix of line 1069:
`if (Ctrl->C.sign && m == 0 && not_nan) m = 1, w = 1.0;`. -/
def grdblend_cell_final (ctrl : BlendCtrl) (cosF : ℚ → ℚ) (half : ℚ) (col : ℤ)
    (tiles : List CTile) : CState :=
  let s := grdblend_cell_loop ctrl cosF half col tiles
  if ctrl.C_sign ≠ 0 ∧ s.m = 0 ∧ s.not_nan = true then { s with m := 1, w := 1 } else s

/-- The value emitted for one cell (lines 1071-1091): for `m > 0` the
`out_case` switch (0 the blended average with the `w == 0` guard and the
optional -Z scale, 1 the weight sum for -W, 2 `z * w` for -Wz), otherwise
the configured no-data value (which is itself `none` when NaN). -/
def grdblend_cell_output (ctrl : BlendCtrl) (cosF : ℚ → ℚ) (half : ℚ) (col : ℤ)
    (tiles : List CTile) (no_data : Option ℚ) : Option ℚ :=
  let s := grdblend_cell_final ctrl cosF half col tiles
  if s.m ≠ 0 then
    some
      (if ctrl.W_active = false then
        let zb := if s.w = 0 then 0 else s.z / s.w
        if ctrl.Z_active then zb * ctrl.Z_scale else zb
      else if ctrl.W_mode = false then s.w
      else s.z * s.w)
  else no_data

/-- Whether the cell is counted by the `n_fill++` of line 1084. -/
def grdblend_cell_filled (ctrl : BlendCtrl) (cosF : ℚ → ℚ) (half : ℚ) (col : ℤ)
    (tiles : List CTile) : Bool :=
  decide ((grdblend_cell_final ctrl cosF half col tiles).m ≠ 0)

/-- The list of non-NaN values offered at this cell by the covering tiles,
in input order. -/
def grdblend_coveringVals (col : ℤ) (tiles : List CTile) : List ℚ :=
  tiles.filterMap (grdblend_val col)

/-- The (weight, value) contribution pairs of the covering tiles at one
cell, in input order, using the blend taper weight. -/
def grdblend_contribs (cosF : ℚ → ℚ) (half : ℚ) (col : ℤ)
    (tiles : List CTile) : List (ℚ × ℚ) :=
  tiles.filterMap fun B =>
    (grdblend_val col B).map fun v => (grdblend_wt cosF half col B, v)

/-- The weight sum Σ weight over contributing tiles. -/
def grdblend_wsum (cosF : ℚ → ℚ) (half : ℚ) (col : ℤ) (tiles : List CTile) : ℚ :=
  ((grdblend_contribs cosF half col tiles).map Prod.fst).sum

/-- The weighted value sum Σ weight * value over contributing tiles. -/
def grdblend_zsum (cosF : ℚ → ℚ) (half : ℚ) (col : ℤ) (tiles : List CTile) : ℚ :=
  ((grdblend_contribs cosF half col tiles).map fun p => p.1 * p.2).sum

/-! Helper lemmas. -/

theorem process_tile_none (ctrl : BlendCtrl) (cosF : ℚ → ℚ) (half : ℚ) (col : ℤ)
    (s : CState) (B : CTile) (hv : grdblend_val col B = none) :
    grdblend_process_tile ctrl cosF half col s B = s := by
  simp [grdblend_process_tile, hv]

theorem process_tile_some (ctrl : BlendCtrl) (cosF : ℚ → ℚ) (half : ℚ) (col : ℤ)
    (s : CState) (B : CTile) (v : ℚ) (hv : grdblend_val col B = some v) :
    grdblend_process_tile ctrl cosF half col s B = grdblend_accept ctrl cosF half col s B v := by
  simp [grdblend_process_tile, hv]

theorem fold_none (ctrl : BlendCtrl) (cosF : ℚ → ℚ) (half : ℚ) (col : ℤ) :
    ∀ (tiles : List CTile) (s : CState),
      (∀ B ∈ tiles, grdblend_val col B = none) →
      tiles.foldl (grdblend_process_tile ctrl cosF half col) s = s := by
  intro tiles
  induction tiles with
  | nil => intro s _; rfl
  | cons B ts ih =>
      intro s hn
      rw [List.foldl_cons, process_tile_none _ _ _ _ _ _ (hn B (List.mem_cons_self _ _))]
      exact ih s fun A hA => hn A (List.mem_cons_of_mem _ hA)

theorem round_mono_q {a b : ℚ} (hab : a ≤ b) : round a ≤ round b := by
  rw [round_eq, round_eq]
  exact Int.floor_le_floor (by linarith)

theorem phase_frac_nonneg (g h : GridHeader) (side : Fin 4) :
    0 ≤ grdblend_phase_frac g h side := by
  unfold grdblend_phase_frac
  exact Int.fract_nonneg _

theorem phase_frac_lt_one (g h : GridHeader) (side : Fin 4) :
    grdblend_phase_frac g h side < 1 := by
  unfold grdblend_phase_frac
  exact Int.fract_lt_one _

theorem grdblend_inc_mismatch_iff (t h : GridHeader) :
    grdblend_inc_mismatch t h = true ↔
      1 / 500 < |(t.inc_x - h.inc_x) / h.inc_x| ∨
      1 / 500 < |(t.inc_y - h.inc_y) / h.inc_y| := by
  simp [grdblend_inc_mismatch, gt_iff_lt]

theorem grdblend_out_of_phase_iff (g h : GridHeader) :
    grdblend_out_of_phase g h = true ↔
      ∃ side : Fin 4, GMT_CONV8_LIMIT ≤ |grdblend_phase_frac g h side| ∧
        GMT_CONV8_LIMIT ≤ |1 - grdblend_phase_frac g h side| := by
  have habs : ∀ side : Fin 4, |grdblend_phase_frac g h side| = grdblend_phase_frac g h side :=
    fun side => abs_of_nonneg (phase_frac_nonneg g h side)
  have habs1 : ∀ side : Fin 4,
      |1 - grdblend_phase_frac g h side| = 1 - grdblend_phase_frac g h side :=
    fun side => abs_of_nonneg (by have := phase_frac_lt_one g h side; linarith)
  unfold grdblend_out_of_phase
  rw [List.any_eq_true]
  constructor
  · rintro ⟨side, -, hc⟩
    simp only [Bool.and_eq_true, Bool.not_eq_true', decide_eq_false_iff_not, not_lt] at hc
    exact ⟨side, by rw [habs]; exact hc.1, by rw [habs1]; exact hc.2⟩
  · rintro ⟨side, h1, h2⟩
    rw [habs] at h1
    rw [habs1] at h2
    refine ⟨side, List.mem_finRange side, ?_⟩
    simp only [Bool.and_eq_true, Bool.not_eq_true', decide_eq_false_iff_not, not_lt]
    exact ⟨h1, h2⟩

/-! Claims about the row synchronizer. -/

/-- C2: for every tile that is not ignored and whose output-row range
contains the current row, the per-row weight computed by
grdblend_sync_input_rows equals the tile's scalar weight times the
piecewise cosine taper, with the wyu branch for rows at or above the inner
top, the wyd branch for rows at or below the inner bottom, and exactly 1
strictly between. -/
theorem claim2_row_taper (cosF : ℚ → ℚ) (half : ℚ) (row : ℤ) (B : SyncTile)
    (hig : B.ignore = false) (h0 : B.out_j0 ≤ row) (h1 : row ≤ B.out_j1) :
    (grdblend_sync_tile cosF half row B).wt_y =
      B.weight *
        (if row ≤ B.in_j0 then
          1 / 2 * (1 - cosF (((row : ℚ) - (B.out_j0 : ℚ) + half) * B.wyu))
        else if row ≥ B.in_j1 then
          1 / 2 * (1 - cosF (((B.out_j1 : ℚ) - (row : ℚ) + half) * B.wyd))
        else 1) := by
  have hrange : ¬(row < B.out_j0 ∨ row > B.out_j1) := by omega
  simp only [grdblend_sync_tile, hig, Bool.false_eq_true, if_false, hrange]
  split_ifs <;> simp <;> ring

/-- C2 witness: a concrete tile in its top taper zone. -/
theorem claim2_witness :
    (grdblend_sync_tile (fun _ => 0) 0 3
      { ignore := false, outside := false, isOpen := false, memory := true, del := false,
        out_j0 := 0, out_j1 := 10, in_j0 := 3, in_j1 := 7, wyu := 1, wyd := 1,
        weight := 2, wt_y := 0, zFreed := false, fileDeleted := false }).wt_y = 1 := by
  rw [claim2_row_taper (fun _ => 0) 0 3 _ rfl (by decide) (by decide)]
  norm_num

/-- C7: over the whole row scan an ignored tile is never touched (in
particular never opened); a closed tile only transitions to open at a row
inside [out_j0, out_j1]; and at the first row outside that range while the
tile is open, it is closed, its row buffer freed, and its temporary file
deleted when flagged. -/
theorem claim7_lifecycle (cosF : ℚ → ℚ) (half : ℚ) :
    (∀ (rows : List ℤ) (B : SyncTile), B.ignore = true →
        grdblend_sync_scan cosF half rows B = B) ∧
    (∀ (row : ℤ) (B : SyncTile), B.ignore = false → B.isOpen = false →
        (grdblend_sync_tile cosF half row B).isOpen = true →
        B.out_j0 ≤ row ∧ row ≤ B.out_j1) ∧
    (∀ (row : ℤ) (B : SyncTile), B.ignore = false → B.isOpen = true →
        (row < B.out_j0 ∨ row > B.out_j1) →
        (grdblend_sync_tile cosF half row B).isOpen = false ∧
        (grdblend_sync_tile cosF half row B).zFreed = true ∧
        (B.del = true → (grdblend_sync_tile cosF half row B).fileDeleted = true)) := by
  refine ⟨?_, ?_, ?_⟩
  · intro rows B hig
    induction rows with
    | nil => rfl
    | cons r rows ih =>
        have hstep : grdblend_sync_tile cosF half r B = B := by
          simp [grdblend_sync_tile, hig]
        simp only [grdblend_sync_scan, List.foldl_cons, hstep]
        exact ih
  · intro row B hig hop h
    rcases le_or_lt B.out_j0 row with h0 | h0
    · rcases le_or_lt row B.out_j1 with h1 | h1
      · exact ⟨h0, h1⟩
      · exfalso
        have hr : row < B.out_j0 ∨ row > B.out_j1 := Or.inr h1
        simp [grdblend_sync_tile, hig, hr, hop] at h
    · exfalso
      have hr : row < B.out_j0 ∨ row > B.out_j1 := Or.inl h0
      simp [grdblend_sync_tile, hig, hr, hop] at h
  · intro row B hig hop hr
    refine ⟨?_, ?_, ?_⟩
    · simp [grdblend_sync_tile, hig, hr, hop]
    · simp [grdblend_sync_tile, hig, hr, hop]
    · intro hd
      simp [grdblend_sync_tile, hig, hr, hop, hd]

/-- C7 witness: a concrete ignored tile is unchanged by a three-row scan,
and a concrete open, delete-flagged tile leaving its row range is closed,
freed and deleted. -/
theorem claim7_witness :
    grdblend_sync_scan (fun _ => 0) 0 [0, 1, 2]
      { ignore := true, outside := false, isOpen := false, memory := false, del := false,
        out_j0 := 0, out_j1 := 1, in_j0 := 0, in_j1 := 1, wyu := 0, wyd := 0,
        weight := 1, wt_y := 0, zFreed := false, fileDeleted := false } =
      { ignore := true, outside := false, isOpen := false, memory := false, del := false,
        out_j0 := 0, out_j1 := 1, in_j0 := 0, in_j1 := 1, wyu := 0, wyd := 0,
        weight := 1, wt_y := 0, zFreed := false, fileDeleted := false } ∧
    ((grdblend_sync_tile (fun _ => 0) 0 5
      { ignore := false, outside := false, isOpen := true, memory := false, del := true,
        out_j0 := 0, out_j1 := 1, in_j0 := 0, in_j1 := 1, wyu := 0, wyd := 0,
        weight := 1, wt_y := 0, zFreed := false, fileDeleted := false }).isOpen = false ∧
     (grdblend_sync_tile (fun _ => 0) 0 5
      { ignore := false, outside := false, isOpen := true, memory := false, del := true,
        out_j0 := 0, out_j1 := 1, in_j0 := 0, in_j1 := 1, wyu := 0, wyd := 0,
        weight := 1, wt_y := 0, zFreed := false, fileDeleted := false }).zFreed = true) :=
  ⟨(claim7_lifecycle (fun _ => 0) 0).1 [0, 1, 2] _ rfl,
   ((claim7_lifecycle (fun _ => 0) 0).2.2 5 _ rfl rfl (by decide)).1,
   ((claim7_lifecycle (fun _ => 0) 0).2.2 5 _ rfl rfl (by decide)).2.1⟩

/-! Claims about the tile geometry. -/

/-- C4 counterexample: a tile whose inner region coincides with its outer
region (the default when no inner region is given, lines 344-345) has all
four taper denominators zero, yet it is not rejected: no degenerate-taper
check exists, the tile keeps `ignore = false` and receives a geometry. -/
theorem claim4_counterexample :
    (⟨0, 3, 0, 3⟩ : GMTRegion).xlo = (⟨0, 3, 0, 3, 1, 1, 0, 0⟩ : GridHeader).xlo ∧
    (grdblend_init_tile 3 ⟨0, 3, 0, 3, 1, 1, 0, 0⟩ ⟨0, 3, 0, 3, 1, 1, 0, 0⟩
        ⟨0, 3, 0, 3⟩).ignore = false ∧
    (grdblend_init_tile 3 ⟨0, 3, 0, 3, 1, 1, 0, 0⟩ ⟨0, 3, 0, 3, 1, 1, 0, 0⟩
        ⟨0, 3, 0, 3⟩).geom =
      grdblend_tile_geometry 3 ⟨0, 3, 0, 3, 1, 1, 0, 0⟩ ⟨0, 3, 0, 3, 1, 1, 0, 0⟩
        ⟨0, 3, 0, 3⟩ := by
  have hy : grdblend_outside_y_range ⟨0, 3, 0, 3, 1, 1, 0, 0⟩ ⟨0, 3, 0, 3⟩ = false := by
    decide
  have hx : grdblend_outside_cartesian_x_range ⟨0, 3, 0, 3, 1, 1, 0, 0⟩ ⟨0, 3, 0, 3⟩ = false := by
    decide
  refine ⟨rfl, ?_, ?_⟩ <;> simp [grdblend_init_tile, hy, hx]

/-- C4 (amended): each taper coefficient of lines 536-539 satisfies
coefficient * gap = pi * increment for its edge's oriented inner/outer gap
whenever that gap is nonzero, and there is no degenerate-geometry
rejection: a tile that overlaps the output region is initialized with
`ignore = false` no matter whether any gap is zero. -/
theorem claim4_amended (pi : ℚ) (h t : GridHeader) (inner : GMTRegion) :
    (grdblend_outside_y_range h inner = false →
      grdblend_outside_cartesian_x_range h inner = false →
      grdblend_init_tile pi h t inner =
        { ignore := false, geom := grdblend_tile_geometry pi h t inner }) ∧
    (inner.xlo - t.xlo ≠ 0 →
      (grdblend_tile_geometry pi h t inner).wxl * (inner.xlo - t.xlo) = pi * h.inc_x) ∧
    (t.xhi - inner.xhi ≠ 0 →
      (grdblend_tile_geometry pi h t inner).wxr * (t.xhi - inner.xhi) = pi * h.inc_x) ∧
    (t.yhi - inner.yhi ≠ 0 →
      (grdblend_tile_geometry pi h t inner).wyu * (t.yhi - inner.yhi) = pi * h.inc_y) ∧
    (inner.ylo - t.ylo ≠ 0 →
      (grdblend_tile_geometry pi h t inner).wyd * (inner.ylo - t.ylo) = pi * h.inc_y) := by
  refine ⟨?_, ?_, ?_, ?_, ?_⟩
  · intro hy hx
    simp [grdblend_init_tile, hy, hx]
  all_goals intro hne
  all_goals simp only [grdblend_tile_geometry]
  all_goals exact div_mul_cancel₀ _ hne

/-- C4 witness: a tile with a strictly interior inner region. -/
theorem claim4_witness :
    (grdblend_tile_geometry 3 ⟨0, 10, 0, 10, 1, 1, 0, 0⟩ ⟨0, 10, 0, 10, 1, 1, 0, 0⟩
        ⟨2, 8, 2, 8⟩).wxl * ((2 : ℚ) - 0) = 3 * 1 ∧
    grdblend_init_tile 3 ⟨0, 10, 0, 10, 1, 1, 0, 0⟩ ⟨0, 10, 0, 10, 1, 1, 0, 0⟩ ⟨2, 8, 2, 8⟩ =
      { ignore := false,
        geom := grdblend_tile_geometry 3 ⟨0, 10, 0, 10, 1, 1, 0, 0⟩
          ⟨0, 10, 0, 10, 1, 1, 0, 0⟩ ⟨2, 8, 2, 8⟩ } :=
  ⟨(claim4_amended 3 ⟨0, 10, 0, 10, 1, 1, 0, 0⟩ ⟨0, 10, 0, 10, 1, 1, 0, 0⟩
      ⟨2, 8, 2, 8⟩).2.1 (by norm_num),
   (claim4_amended 3 ⟨0, 10, 0, 10, 1, 1, 0, 0⟩ ⟨0, 10, 0, 10, 1, 1, 0, 0⟩
      ⟨2, 8, 2, 8⟩).1 rfl rfl⟩

/-- C5 counterexample: in the default case inner = outer the inner index
bounds land strictly outside the outer ones: `in_i0 = out_i0 - 1`, so the
claimed `out_col0 ≤ in_col0` fails. -/
theorem claim5_counterexample :
    (grdblend_tile_geometry 3 ⟨0, 3, 0, 3, 1, 1, 0, 0⟩ ⟨0, 3, 0, 3, 1, 1, 0, 0⟩
        ⟨0, 3, 0, 3⟩).in_i0 <
      (grdblend_tile_geometry 3 ⟨0, 3, 0, 3, 1, 1, 0, 0⟩ ⟨0, 3, 0, 3, 1, 1, 0, 0⟩
        ⟨0, 3, 0, 3⟩).out_i0 := by
  norm_num [grdblend_tile_geometry, irint]

/-- C5 (amended): once the geometry of lines 527-534 is computed for a tile
whose inner region lies within its outer region (and positive output
increments), the index bounds satisfy `out_i0 - 1 ≤ in_i0 ≤ in_i1` and
`in_i1 ≤ out_i1 + t.registration + one_or_zero`, and the row analogues; the
inner bounds may thus exceed the outer ones by exactly the deliberate
-1 and +one_or_zero adjustments of lines 528-529 and 532-533. -/
theorem claim5_amended (pi : ℚ) (h t : GridHeader) (inner : GMTRegion)
    (hincx : 0 < h.inc_x) (hincy : 0 < h.inc_y)
    (hxl : t.xlo ≤ inner.xlo) (hxw : inner.xlo ≤ inner.xhi) (hxh : inner.xhi ≤ t.xhi)
    (hyl : t.ylo ≤ inner.ylo) (hyw : inner.ylo ≤ inner.yhi) (hyh : inner.yhi ≤ t.yhi) :
    (grdblend_tile_geometry pi h t inner).out_i0 - 1 ≤
        (grdblend_tile_geometry pi h t inner).in_i0 ∧
    (grdblend_tile_geometry pi h t inner).in_i0 ≤
        (grdblend_tile_geometry pi h t inner).in_i1 ∧
    (grdblend_tile_geometry pi h t inner).in_i1 ≤
        (grdblend_tile_geometry pi h t inner).out_i1 + t.registration +
          (if h.registration = 0 then 1 else 0) ∧
    (grdblend_tile_geometry pi h t inner).out_j0 - 1 ≤
        (grdblend_tile_geometry pi h t inner).in_j0 ∧
    (grdblend_tile_geometry pi h t inner).in_j0 ≤
        (grdblend_tile_geometry pi h t inner).in_j1 ∧
    (grdblend_tile_geometry pi h t inner).in_j1 ≤
        (grdblend_tile_geometry pi h t inner).out_j1 + t.registration +
          (if h.registration = 0 then 1 else 0) := by
  have hrx : (0 : ℚ) ≤ 1 / h.inc_x := by positivity
  have hry : (0 : ℚ) ≤ 1 / h.inc_y := by positivity
  have r1 : round ((t.xlo - h.xlo) * (1 / h.inc_x)) ≤
      round ((inner.xlo - h.xlo) * (1 / h.inc_x)) :=
    round_mono_q (mul_le_mul_of_nonneg_right (by linarith) hrx)
  have r2 : round ((inner.xlo - h.xlo) * (1 / h.inc_x)) ≤
      round ((inner.xhi - h.xlo) * (1 / h.inc_x)) :=
    round_mono_q (mul_le_mul_of_nonneg_right (by linarith) hrx)
  have r3 : round ((inner.xhi - h.xlo) * (1 / h.inc_x)) ≤
      round ((t.xhi - h.xlo) * (1 / h.inc_x)) :=
    round_mono_q (mul_le_mul_of_nonneg_right (by linarith) hrx)
  have r4 : round ((h.yhi - t.yhi) * (1 / h.inc_y)) ≤
      round ((h.yhi - inner.yhi) * (1 / h.inc_y)) :=
    round_mono_q (mul_le_mul_of_nonneg_right (by linarith) hry)
  have r5 : round ((h.yhi - inner.yhi) * (1 / h.inc_y)) ≤
      round ((h.yhi - inner.ylo) * (1 / h.inc_y)) :=
    round_mono_q (mul_le_mul_of_nonneg_right (by linarith) hry)
  have r6 : round ((h.yhi - inner.ylo) * (1 / h.inc_y)) ≤
      round ((h.yhi - t.ylo) * (1 / h.inc_y)) :=
    round_mono_q (mul_le_mul_of_nonneg_right (by linarith) hry)
  simp only [grdblend_tile_geometry, irint]
  split_ifs <;> omega

/-- C5 witness: the default inner = outer tile on a node-registered unit
lattice satisfies the amended bounds (with `in_i0 = out_i0 - 1`). -/
theorem claim5_witness :
    (grdblend_tile_geometry 3 ⟨0, 3, 0, 3, 1, 1, 0, 0⟩ ⟨0, 3, 0, 3, 1, 1, 0, 0⟩
        ⟨0, 3, 0, 3⟩).out_i0 - 1 ≤
      (grdblend_tile_geometry 3 ⟨0, 3, 0, 3, 1, 1, 0, 0⟩ ⟨0, 3, 0, 3, 1, 1, 0, 0⟩
        ⟨0, 3, 0, 3⟩).in_i0 :=
  (claim5_amended 3 ⟨0, 3, 0, 3, 1, 1, 0, 0⟩ ⟨0, 3, 0, 3, 1, 1, 0, 0⟩ ⟨0, 3, 0, 3⟩
    (by norm_num) (by norm_num) (by norm_num) (by norm_num) (by norm_num)
    (by norm_num) (by norm_num) (by norm_num)).1

/-! Claims about the resampling decision. -/

/-- The phase residual exactly as the claim words it, on the raw edge
coordinates with no registration offset: frac of the absolute edge
difference over the output increment.  Stated for comparison with the
code's `grdblend_phase_frac`, which first shifts each edge by
`xy_off * inc`. -/
def claim_phase_residual (t h : GridHeader) (side : Fin 4) : ℚ :=
  let way : Fin 2 := ⟨side.val / 2, by omega⟩
  Int.fract |(t.wesn side - h.wesn side) / h.inc way|

/-- C8 counterexample: a pixel-registered tile on the same extent, same
increments, as a node-registered output grid.  The increments match and
the claim's raw-edge residual is 0 on all four sides, so the claim says
the tile is used as-is; the code nevertheless sets the resample bit, since
its phase test offsets each edge by `xy_off * inc` (line 150) and sees a
residual of one half cell. -/
theorem claim8_counterexample :
    grdblend_do_sample false ⟨0, 2, 0, 2, 1, 1, 1/2, 1⟩ ⟨0, 2, 0, 2, 1, 1, 0, 0⟩ &&& 1 = 1 ∧
    grdblend_inc_mismatch ⟨0, 2, 0, 2, 1, 1, 1/2, 1⟩ ⟨0, 2, 0, 2, 1, 1, 0, 0⟩ = false ∧
    ∀ side : Fin 4,
      claim_phase_residual ⟨0, 2, 0, 2, 1, 1, 1/2, 1⟩ ⟨0, 2, 0, 2, 1, 1, 0, 0⟩ side = 0 := by
  have hm : grdblend_inc_mismatch ⟨0, 2, 0, 2, 1, 1, 1/2, 1⟩ ⟨0, 2, 0, 2, 1, 1, 0, 0⟩
      = false := by
    norm_num [grdblend_inc_mismatch]
  have hfrac : grdblend_phase_frac ⟨0, 2, 0, 2, 1, 1, 1/2, 1⟩ ⟨0, 2, 0, 2, 1, 1, 0, 0⟩ 0
      = 1/2 := by
    unfold grdblend_phase_frac
    norm_num [GridHeader.wesn, GridHeader.inc]
    rw [show |(1 : ℚ)/2| = 1/2 by norm_num]
    exact Int.fract_eq_self.mpr (by norm_num)
  have hp : grdblend_out_of_phase ⟨0, 2, 0, 2, 1, 1, 1/2, 1⟩ ⟨0, 2, 0, 2, 1, 1, 0, 0⟩
      = true := by
    rw [grdblend_out_of_phase_iff]
    exact ⟨0, by rw [hfrac, show |(1 : ℚ)/2| = 1/2 by norm_num]; norm_num [GMT_CONV8_LIMIT],
              by rw [hfrac, show |1 - (1 : ℚ)/2| = 1/2 by norm_num]; norm_num [GMT_CONV8_LIMIT]⟩
  refine ⟨?_, hm, ?_⟩
  · unfold grdblend_do_sample
    rw [hm, hp]
    decide
  · intro side
    fin_cases side <;>
      · unfold claim_phase_residual
        norm_num [GridHeader.wesn, GridHeader.inc]

/-- C8 (amended): the resample bit of `do_sample` is set exactly when the
relative increment mismatch on either axis exceeds 0.002, or the phase
residual of some side is at least 1e-8 away from both 0 and 1 - where the
residual is frac of the absolute registration-adjusted edge difference
(each edge shifted by its grid's `xy_off * inc`) over the output
increment.  This holds whether or not the format is row-by-row readable
(`ns`), which only affects the reformat bit. -/
theorem claim8_amended (ns : Bool) (t h : GridHeader) :
    grdblend_do_sample ns t h &&& 1 ≠ 0 ↔
      1 / 500 < |(t.inc_x - h.inc_x) / h.inc_x| ∨
      1 / 500 < |(t.inc_y - h.inc_y) / h.inc_y| ∨
      ∃ side : Fin 4, GMT_CONV8_LIMIT ≤ |grdblend_phase_frac t h side| ∧
        GMT_CONV8_LIMIT ≤ |1 - grdblend_phase_frac t h side| := by
  have key : (grdblend_do_sample ns t h &&& 1 ≠ 0) ↔
      (grdblend_inc_mismatch t h = true ∨ grdblend_out_of_phase t h = true) := by
    unfold grdblend_do_sample
    cases ns <;> cases hm : grdblend_inc_mismatch t h <;>
      cases hp : grdblend_out_of_phase t h <;> simp [hm, hp]
  rw [key, grdblend_inc_mismatch_iff, grdblend_out_of_phase_iff, or_assoc]

/-! Claims about the per-cell compositor. -/

theorem blend_fold (ctrl : BlendCtrl) (cosF : ℚ → ℚ) (half : ℚ) (col : ℤ)
    (hC : ctrl.C_active = false) :
    ∀ (tiles : List CTile) (s : CState),
      tiles.foldl (grdblend_process_tile ctrl cosF half col) s =
        { z := s.z + grdblend_zsum cosF half col tiles,
          w := s.w + grdblend_wsum cosF half col tiles,
          m := s.m + (grdblend_coveringVals col tiles).length,
          not_nan := s.not_nan || !(grdblend_coveringVals col tiles).isEmpty,
          first_grid := s.first_grid } := by
  intro tiles
  induction tiles with
  | nil =>
      intro s
      simp [grdblend_zsum, grdblend_wsum, grdblend_contribs, grdblend_coveringVals]
  | cons B ts ih =>
      intro s
      cases hv : grdblend_val col B with
      | none =>
          rw [List.foldl_cons, process_tile_none _ _ _ _ _ _ hv, ih]
          simp [grdblend_zsum, grdblend_wsum, grdblend_contribs, grdblend_coveringVals,
                List.filterMap_cons, hv]
      | some v =>
          have hacc : grdblend_process_tile ctrl cosF half col s B =
              { z := s.z + grdblend_wt cosF half col B * v,
                w := s.w + grdblend_wt cosF half col B,
                m := s.m + 1, not_nan := true, first_grid := s.first_grid } := by
            rw [process_tile_some _ _ _ _ _ _ _ hv]
            simp [grdblend_accept, hC]
          rw [List.foldl_cons, hacc, ih]
          simp only [grdblend_zsum, grdblend_wsum, grdblend_contribs, grdblend_coveringVals,
                List.filterMap_cons, hv, Option.map_some', List.map_cons, List.sum_cons,
                List.isEmpty_cons, List.length_cons, Bool.not_false, Bool.or_true,
                CState.mk.injEq, Bool.true_or]
          refine ⟨by ring, by ring, by omega, trivial, trivial⟩

theorem contribs_length_eq (cosF : ℚ → ℚ) (half : ℚ) (col : ℤ) (tiles : List CTile) :
    (grdblend_contribs cosF half col tiles).length =
      (grdblend_coveringVals col tiles).length := by
  induction tiles with
  | nil => rfl
  | cons B ts ih =>
      cases hv : grdblend_val col B with
      | none =>
          simp only [grdblend_contribs, grdblend_coveringVals, List.filterMap_cons, hv,
                     Option.map_none']
          exact ih
      | some v =>
          simp only [grdblend_contribs, grdblend_coveringVals, List.filterMap_cons, hv,
                     Option.map_some', List.length_cons]
          exact congrArg (· + 1) ih

/-- C1 (amended): at a cell with at least one contributing tile, blend mode
emits per output case: `Value` the weighted sum over the weight sum
(0 when the weight sum is 0), optionally times the -Z scale; `WeightOnly`
the weight sum; and the -Wz case the weighted sum MULTIPLIED BY the weight
sum (`z[col] * w` at line 1081), not the weighted sum alone. -/
theorem claim1_amended (ctrl : BlendCtrl) (cosF : ℚ → ℚ) (half : ℚ) (col : ℤ)
    (tiles : List CTile) (nd : Option ℚ)
    (hC : ctrl.C_active = false)
    (hne : grdblend_coveringVals col tiles ≠ []) :
    grdblend_cell_output ctrl cosF half col tiles nd =
      some
        (if ctrl.W_active = false then
          let zb := if grdblend_wsum cosF half col tiles = 0 then 0
                    else grdblend_zsum cosF half col tiles / grdblend_wsum cosF half col tiles
          if ctrl.Z_active then zb * ctrl.Z_scale else zb
        else if ctrl.W_mode = false then grdblend_wsum cosF half col tiles
        else grdblend_zsum cosF half col tiles * grdblend_wsum cosF half col tiles) := by
  have hlen : (grdblend_coveringVals col tiles).length ≠ 0 := by
    simpa [List.length_eq_zero] using hne
  have hfold := blend_fold ctrl cosF half col hC tiles initCState
  unfold grdblend_cell_output grdblend_cell_final grdblend_cell_loop
  rw [hfold]
  simp [initCState, hlen]

/-- C1 counterexample: one covering tile with taper weight 2 and value 3 in
the -Wz output case.  The weighted value sum is 6, but the emitted value is
6 * 2 = 12: the code multiplies the weighted sum by the weight sum instead
of emitting the weighted sum itself. -/
theorem claim1_counterexample :
    grdblend_cell_output ⟨false, ClobberMode.first, 0, true, true, false, 1⟩ (fun _ => 0) 0 0
        [⟨false, false, 0, 0, -1, 1, 0, 0, 2, 1, false, fun _ => some 3⟩] none = some 12 ∧
    grdblend_zsum (fun _ => 0) 0 0
        [⟨false, false, 0, 0, -1, 1, 0, 0, 2, 1, false, fun _ => some 3⟩] = 6 ∧
    (12 : ℚ) ≠ 6 := by
  refine ⟨?_, ?_, by norm_num⟩
  · norm_num [grdblend_cell_output, grdblend_cell_final, grdblend_cell_loop,
              List.foldl_cons, List.foldl_nil, grdblend_process_tile, grdblend_val,
              grdblend_accept, grdblend_wt, grdblend_wt_x, initCState]
  · norm_num [grdblend_zsum, grdblend_contribs, List.filterMap_cons, List.filterMap_nil,
              grdblend_val, grdblend_wt, grdblend_wt_x]

/-- C1 witness: the same tile in the default Value mode emits the weighted
average 6 / 2 = 3. -/
theorem claim1_witness :
    grdblend_cell_output ⟨false, ClobberMode.first, 0, false, false, false, 1⟩ (fun _ => 0) 0 0
        [⟨false, false, 0, 0, -1, 1, 0, 0, 2, 1, false, fun _ => some 3⟩] none = some 3 := by
  rw [claim1_amended _ _ _ _ _ _ rfl (by
    norm_num [grdblend_coveringVals, List.filterMap_cons, List.filterMap_nil, grdblend_val])]
  norm_num [grdblend_wsum, grdblend_zsum, grdblend_contribs, List.filterMap_cons,
            List.filterMap_nil, grdblend_val, grdblend_wt, grdblend_wt_x]

theorem clobber_seed (ctrl : BlendCtrl) (cosF : ℚ → ℚ) (half : ℚ) (col : ℤ)
    (s : CState) (B : CTile) (v : ℚ)
    (hC : ctrl.C_active = true) (hs : ctrl.C_sign = 0) (hm : s.m = 0)
    (hv : grdblend_val col B = some v) :
    grdblend_process_tile ctrl cosF half col s B =
      { s with z := v, w := 1, m := 1, not_nan := true } := by
  rw [process_tile_some _ _ _ _ _ _ _ hv]
  cases hmo : ctrl.C_mode <;> simp [grdblend_accept, hC, hs, hm, hmo]

theorem clobber_first_fold (ctrl : BlendCtrl) (cosF : ℚ → ℚ) (half : ℚ) (col : ℤ)
    (hC : ctrl.C_active = true) (hmo : ctrl.C_mode = ClobberMode.first) :
    ∀ (tiles : List CTile) (s : CState), s.m = 1 →
      ((tiles.foldl (grdblend_process_tile ctrl cosF half col) s).z = s.z ∧
       (tiles.foldl (grdblend_process_tile ctrl cosF half col) s).w = s.w ∧
       (tiles.foldl (grdblend_process_tile ctrl cosF half col) s).m = 1) := by
  intro tiles
  induction tiles with
  | nil => intro s hm; exact ⟨rfl, rfl, hm⟩
  | cons B ts ih =>
      intro s hm
      cases hv : grdblend_val col B with
      | none =>
          rw [List.foldl_cons, process_tile_none _ _ _ _ _ _ hv]
          exact ih s hm
      | some v =>
          have hstep : grdblend_process_tile ctrl cosF half col s B =
              { s with not_nan := true } := by
            rw [process_tile_some _ _ _ _ _ _ _ hv]
            simp [grdblend_accept, hC, hmo, hm]
          rw [List.foldl_cons, hstep]
          exact ih _ hm

theorem clobber_upper_fold (ctrl : BlendCtrl) (cosF : ℚ → ℚ) (half : ℚ) (col : ℤ)
    (hC : ctrl.C_active = true) (hs : ctrl.C_sign = 0)
    (hmo : ctrl.C_mode = ClobberMode.upper) :
    ∀ (tiles : List CTile) (s : CState), s.m = 1 → s.w = 1 →
      ((tiles.foldl (grdblend_process_tile ctrl cosF half col) s).z =
          (grdblend_coveringVals col tiles).foldl max s.z ∧
       (tiles.foldl (grdblend_process_tile ctrl cosF half col) s).w = 1 ∧
       (tiles.foldl (grdblend_process_tile ctrl cosF half col) s).m = 1) := by
  intro tiles
  induction tiles with
  | nil => intro s hm hw; exact ⟨rfl, hw, hm⟩
  | cons B ts ih =>
      intro s hm hw
      cases hv : grdblend_val col B with
      | none =>
          rw [List.foldl_cons, process_tile_none _ _ _ _ _ _ hv]
          simpa [grdblend_coveringVals, List.filterMap_cons, hv] using ih s hm hw
      | some v =>
          rcases le_or_lt v s.z with hvz | hvz
          · have hstep : grdblend_process_tile ctrl cosF half col s B =
                { s with not_nan := true } := by
              rw [process_tile_some _ _ _ _ _ _ _ hv]
              simp [grdblend_accept, hC, hmo, hm, hvz]
            rw [List.foldl_cons, hstep]
            have h2 := ih { s with not_nan := true } hm hw
            simpa [grdblend_coveringVals, List.filterMap_cons, hv, max_eq_left hvz] using h2
          · have hstep : grdblend_process_tile ctrl cosF half col s B =
                { s with z := v, w := 1, m := 1, not_nan := true } := by
              rw [process_tile_some _ _ _ _ _ _ _ hv]
              simp [grdblend_accept, hC, hs, hmo, hm, not_le.mpr hvz]
            rw [List.foldl_cons, hstep]
            have h2 := ih { s with z := v, w := 1, m := 1, not_nan := true } rfl rfl
            simpa [grdblend_coveringVals, List.filterMap_cons, hv,
                   max_eq_right (le_of_lt hvz)] using h2

theorem clobber_lower_fold (ctrl : BlendCtrl) (cosF : ℚ → ℚ) (half : ℚ) (col : ℤ)
    (hC : ctrl.C_active = true) (hs : ctrl.C_sign = 0)
    (hmo : ctrl.C_mode = ClobberMode.lower) :
    ∀ (tiles : List CTile) (s : CState), s.m = 1 → s.w = 1 →
      ((tiles.foldl (grdblend_process_tile ctrl cosF half col) s).z =
          (grdblend_coveringVals col tiles).foldl min s.z ∧
       (tiles.foldl (grdblend_process_tile ctrl cosF half col) s).w = 1 ∧
       (tiles.foldl (grdblend_process_tile ctrl cosF half col) s).m = 1) := by
  intro tiles
  induction tiles with
  | nil => intro s hm hw; exact ⟨rfl, hw, hm⟩
  | cons B ts ih =>
      intro s hm hw
      cases hv : grdblend_val col B with
      | none =>
          rw [List.foldl_cons, process_tile_none _ _ _ _ _ _ hv]
          simpa [grdblend_coveringVals, List.filterMap_cons, hv] using ih s hm hw
      | some v =>
          rcases le_or_lt s.z v with hvz | hvz
          · have hstep : grdblend_process_tile ctrl cosF half col s B =
                { s with not_nan := true } := by
              rw [process_tile_some _ _ _ _ _ _ _ hv]
              simp [grdblend_accept, hC, hmo, hm, hvz]
            rw [List.foldl_cons, hstep]
            have h2 := ih { s with not_nan := true } hm hw
            simpa [grdblend_coveringVals, List.filterMap_cons, hv, min_eq_left hvz] using h2
          · have hstep : grdblend_process_tile ctrl cosF half col s B =
                { s with z := v, w := 1, m := 1, not_nan := true } := by
              rw [process_tile_some _ _ _ _ _ _ _ hv]
              simp [grdblend_accept, hC, hs, hmo, hm, not_le.mpr hvz]
            rw [List.foldl_cons, hstep]
            have h2 := ih { s with z := v, w := 1, m := 1, not_nan := true } rfl rfl
            simpa [grdblend_coveringVals, List.filterMap_cons, hv,
                   min_eq_right (le_of_lt hvz)] using h2

theorem le_foldl_max_seed (v : ℚ) (vs : List ℚ) : v ≤ vs.foldl max v := by
  induction vs generalizing v with
  | nil => exact le_refl v
  | cons a vs ih => exact le_trans (le_max_left v a) (ih (max v a))

theorem foldl_max_mem (v : ℚ) (vs : List ℚ) : vs.foldl max v ∈ v :: vs := by
  induction vs generalizing v with
  | nil => simp
  | cons a vs ih =>
      rw [List.foldl_cons]
      rcases max_choice v a with h | h <;> rw [h]
      · have h2 := ih v
        simp only [List.mem_cons] at h2 ⊢
        tauto
      · have h2 := ih a
        simp only [List.mem_cons] at h2 ⊢
        tauto

theorem foldl_max_le (v : ℚ) (vs : List ℚ) : ∀ x ∈ v :: vs, x ≤ vs.foldl max v := by
  induction vs generalizing v with
  | nil =>
      intro x hx
      simp only [List.mem_cons, List.not_mem_nil, or_false] at hx
      simp [hx]
  | cons a vs ih =>
      intro x hx
      rw [List.foldl_cons]
      simp only [List.mem_cons] at hx
      rcases hx with rfl | rfl | hx
      · exact le_trans (le_max_left x a) (le_foldl_max_seed _ _)
      · exact le_trans (le_max_right v x) (le_foldl_max_seed _ _)
      · exact ih (max v a) x (by simp [List.mem_cons, hx])

theorem foldl_min_seed_le (v : ℚ) (vs : List ℚ) : vs.foldl min v ≤ v := by
  induction vs generalizing v with
  | nil => exact le_refl v
  | cons a vs ih => exact le_trans (ih (min v a)) (min_le_left v a)

theorem foldl_min_mem (v : ℚ) (vs : List ℚ) : vs.foldl min v ∈ v :: vs := by
  induction vs generalizing v with
  | nil => simp
  | cons a vs ih =>
      rw [List.foldl_cons]
      rcases min_choice v a with h | h <;> rw [h]
      · have h2 := ih v
        simp only [List.mem_cons] at h2 ⊢
        tauto
      · have h2 := ih a
        simp only [List.mem_cons] at h2 ⊢
        tauto

theorem foldl_min_le (v : ℚ) (vs : List ℚ) : ∀ x ∈ v :: vs, vs.foldl min v ≤ x := by
  induction vs generalizing v with
  | nil =>
      intro x hx
      simp only [List.mem_cons, List.not_mem_nil, or_false] at hx
      simp [hx]
  | cons a vs ih =>
      intro x hx
      rw [List.foldl_cons]
      simp only [List.mem_cons] at hx
      rcases hx with rfl | rfl | hx
      · exact le_trans (foldl_min_seed_le _ _) (min_le_left x a)
      · exact le_trans (foldl_min_seed_le _ _) (min_le_right v x)
      · exact ih (min v a) x (by simp [List.mem_cons, hx])

theorem cell_output_of_state (ctrl : BlendCtrl) (cosF : ℚ → ℚ) (half : ℚ) (col : ℤ)
    (tiles : List CTile) (nd : Option ℚ)
    (hW : ctrl.W_active = false) (hZ : ctrl.Z_active = false)
    (hm : (grdblend_cell_loop ctrl cosF half col tiles).m = 1)
    (hw : (grdblend_cell_loop ctrl cosF half col tiles).w = 1) :
    grdblend_cell_output ctrl cosF half col tiles nd =
      some ((grdblend_cell_loop ctrl cosF half col tiles).z) := by
  unfold grdblend_cell_output grdblend_cell_final
  simp [hm, hw, hW, hZ]

theorem clobber_first_cell (ctrl : BlendCtrl) (cosF : ℚ → ℚ) (half : ℚ) (col : ℤ)
    (hC : ctrl.C_active = true) (hs : ctrl.C_sign = 0)
    (hmo : ctrl.C_mode = ClobberMode.first) :
    ∀ (tiles : List CTile) (v : ℚ) (vs : List ℚ),
      grdblend_coveringVals col tiles = v :: vs →
      ((grdblend_cell_loop ctrl cosF half col tiles).z = v ∧
       (grdblend_cell_loop ctrl cosF half col tiles).w = 1 ∧
       (grdblend_cell_loop ctrl cosF half col tiles).m = 1) := by
  intro tiles
  unfold grdblend_cell_loop
  induction tiles with
  | nil => intro v vs hcov; simp [grdblend_coveringVals] at hcov
  | cons B ts ih =>
      intro v vs hcov
      cases hv : grdblend_val col B with
      | none =>
          rw [List.foldl_cons, process_tile_none _ _ _ _ _ _ hv]
          refine ih v vs ?_
          simpa [grdblend_coveringVals, List.filterMap_cons, hv] using hcov
      | some v' =>
          have hcov2 := hcov
          simp only [grdblend_coveringVals, List.filterMap_cons, hv] at hcov2
          obtain ⟨rfl, hcv⟩ : v' = v ∧ List.filterMap (grdblend_val col) ts = vs :=
            ⟨List.head_eq_of_cons_eq hcov2, List.tail_eq_of_cons_eq hcov2⟩
          rw [List.foldl_cons, clobber_seed ctrl cosF half col _ _ _ hC hs rfl hv]
          exact clobber_first_fold ctrl cosF half col hC hmo ts
            { initCState with z := v', w := 1, m := 1, not_nan := true } rfl

theorem clobber_upper_cell (ctrl : BlendCtrl) (cosF : ℚ → ℚ) (half : ℚ) (col : ℤ)
    (hC : ctrl.C_active = true) (hs : ctrl.C_sign = 0)
    (hmo : ctrl.C_mode = ClobberMode.upper) :
    ∀ (tiles : List CTile) (v : ℚ) (vs : List ℚ),
      grdblend_coveringVals col tiles = v :: vs →
      ((grdblend_cell_loop ctrl cosF half col tiles).z = vs.foldl max v ∧
       (grdblend_cell_loop ctrl cosF half col tiles).w = 1 ∧
       (grdblend_cell_loop ctrl cosF half col tiles).m = 1) := by
  intro tiles
  unfold grdblend_cell_loop
  induction tiles with
  | nil => intro v vs hcov; simp [grdblend_coveringVals] at hcov
  | cons B ts ih =>
      intro v vs hcov
      cases hv : grdblend_val col B with
      | none =>
          rw [List.foldl_cons, process_tile_none _ _ _ _ _ _ hv]
          refine ih v vs ?_
          simpa [grdblend_coveringVals, List.filterMap_cons, hv] using hcov
      | some v' =>
          have hcov2 := hcov
          simp only [grdblend_coveringVals, List.filterMap_cons, hv] at hcov2
          obtain ⟨rfl, hcv⟩ : v' = v ∧ List.filterMap (grdblend_val col) ts = vs :=
            ⟨List.head_eq_of_cons_eq hcov2, List.tail_eq_of_cons_eq hcov2⟩
          have hcv' : grdblend_coveringVals col ts = vs := hcv
          rw [List.foldl_cons, clobber_seed ctrl cosF half col _ _ _ hC hs rfl hv]
          have h2 := clobber_upper_fold ctrl cosF half col hC hs hmo ts
            { initCState with z := v', w := 1, m := 1, not_nan := true } rfl rfl
          rw [hcv'] at h2
          exact h2

theorem clobber_lower_cell (ctrl : BlendCtrl) (cosF : ℚ → ℚ) (half : ℚ) (col : ℤ)
    (hC : ctrl.C_active = true) (hs : ctrl.C_sign = 0)
    (hmo : ctrl.C_mode = ClobberMode.lower) :
    ∀ (tiles : List CTile) (v : ℚ) (vs : List ℚ),
      grdblend_coveringVals col tiles = v :: vs →
      ((grdblend_cell_loop ctrl cosF half col tiles).z = vs.foldl min v ∧
       (grdblend_cell_loop ctrl cosF half col tiles).w = 1 ∧
       (grdblend_cell_loop ctrl cosF half col tiles).m = 1) := by
  intro tiles
  unfold grdblend_cell_loop
  induction tiles with
  | nil => intro v vs hcov; simp [grdblend_coveringVals] at hcov
  | cons B ts ih =>
      intro v vs hcov
      cases hv : grdblend_val col B with
      | none =>
          rw [List.foldl_cons, process_tile_none _ _ _ _ _ _ hv]
          refine ih v vs ?_
          simpa [grdblend_coveringVals, List.filterMap_cons, hv] using hcov
      | some v' =>
          have hcov2 := hcov
          simp only [grdblend_coveringVals, List.filterMap_cons, hv] at hcov2
          obtain ⟨rfl, hcv⟩ : v' = v ∧ List.filterMap (grdblend_val col) ts = vs :=
            ⟨List.head_eq_of_cons_eq hcov2, List.tail_eq_of_cons_eq hcov2⟩
          have hcv' : grdblend_coveringVals col ts = vs := hcv
          rw [List.foldl_cons, clobber_seed ctrl cosF half col _ _ _ hC hs rfl hv]
          have h2 := clobber_lower_fold ctrl cosF half col hC hs hmo ts
            { initCState with z := v', w := 1, m := 1, not_nan := true } rfl rfl
          rw [hcv'] at h2
          exact h2

/-- C3: with no sign filter and the default Value output, ClobberFirst
emits the first-listed covering non-NaN value regardless of later tiles;
ClobberUpper emits the pointwise maximum and ClobberLower the pointwise
minimum over all covering tiles' non-NaN values. -/
theorem claim3_clobber_policies (ctrl : BlendCtrl) (cosF : ℚ → ℚ) (half : ℚ) (col : ℤ)
    (tiles : List CTile) (nd : Option ℚ) (v : ℚ) (vs : List ℚ)
    (hC : ctrl.C_active = true) (hs : ctrl.C_sign = 0)
    (hW : ctrl.W_active = false) (hZ : ctrl.Z_active = false)
    (hcov : grdblend_coveringVals col tiles = v :: vs) :
    (ctrl.C_mode = ClobberMode.first →
        grdblend_cell_output ctrl cosF half col tiles nd = some v) ∧
    (ctrl.C_mode = ClobberMode.upper →
        grdblend_cell_output ctrl cosF half col tiles nd = some (vs.foldl max v) ∧
        vs.foldl max v ∈ v :: vs ∧ ∀ x ∈ v :: vs, x ≤ vs.foldl max v) ∧
    (ctrl.C_mode = ClobberMode.lower →
        grdblend_cell_output ctrl cosF half col tiles nd = some (vs.foldl min v) ∧
        vs.foldl min v ∈ v :: vs ∧ ∀ x ∈ v :: vs, vs.foldl min v ≤ x) := by
  refine ⟨?_, ?_, ?_⟩
  · intro hmo
    have h2 := clobber_first_cell ctrl cosF half col hC hs hmo tiles v vs hcov
    rw [cell_output_of_state ctrl cosF half col tiles nd hW hZ h2.2.2 h2.2.1, h2.1]
  · intro hmo
    have h2 := clobber_upper_cell ctrl cosF half col hC hs hmo tiles v vs hcov
    rw [cell_output_of_state ctrl cosF half col tiles nd hW hZ h2.2.2 h2.2.1, h2.1]
    exact ⟨rfl, foldl_max_mem v vs, foldl_max_le v vs⟩
  · intro hmo
    have h2 := clobber_lower_cell ctrl cosF half col hC hs hmo tiles v vs hcov
    rw [cell_output_of_state ctrl cosF half col tiles nd hW hZ h2.2.2 h2.2.1, h2.1]
    exact ⟨rfl, foldl_min_mem v vs, foldl_min_le v vs⟩

/-- C3 witness: two covering tiles with values 1 and 5; ClobberUpper picks
5. -/
theorem claim3_witness :
    grdblend_cell_output ⟨true, ClobberMode.upper, 0, false, false, false, 1⟩ (fun _ => 0) 0 0
      [⟨false, false, 0, 0, -1, 1, 0, 0, 1, 1, false, fun _ => some 1⟩,
       ⟨false, false, 0, 0, -1, 1, 0, 0, 1, 1, false, fun _ => some 5⟩] none = some 5 := by
  have h := (claim3_clobber_policies ⟨true, ClobberMode.upper, 0, false, false, false, 1⟩
    (fun _ => 0) 0 0
    [⟨false, false, 0, 0, -1, 1, 0, 0, 1, 1, false, fun _ => some 1⟩,
     ⟨false, false, 0, 0, -1, 1, 0, 0, 1, 1, false, fun _ => some 5⟩] none 1 [5]
    rfl rfl rfl rfl (by
      norm_num [grdblend_coveringVals, List.filterMap_cons, List.filterMap_nil,
                grdblend_val])).2.1 rfl
  rw [h.1]
  norm_num [List.foldl]

theorem sign_seed (ctrl : BlendCtrl) (cosF : ℚ → ℚ) (half : ℚ) (col : ℤ)
    (s : CState) (B : CTile) (v : ℚ)
    (hC : ctrl.C_active = true) (hs : ctrl.C_sign = -1 ∨ ctrl.C_sign = 1)
    (hm : s.m = 0) (hfg : s.first_grid = true)
    (hv : grdblend_val col B = some v) :
    grdblend_process_tile ctrl cosF half col s B =
      { s with z := v, not_nan := true, first_grid := false } := by
  rw [process_tile_some _ _ _ _ _ _ _ hv]
  rcases hs with hs | hs <;>
    cases hmo : ctrl.C_mode <;>
      norm_num [grdblend_accept, hC, hs, hm, hfg, hmo]

theorem sign_skip_fold (ctrl : BlendCtrl) (cosF : ℚ → ℚ) (half : ℚ) (col : ℤ)
    (hC : ctrl.C_active = true) (hs : ctrl.C_sign = -1 ∨ ctrl.C_sign = 1) :
    ∀ (tiles : List CTile) (s : CState), s.m = 0 → s.first_grid = false →
      s.not_nan = true →
      (∀ x ∈ grdblend_coveringVals col tiles,
        (ctrl.C_sign = -1 → 0 < x) ∧ (ctrl.C_sign = 1 → x < 0)) →
      ((tiles.foldl (grdblend_process_tile ctrl cosF half col) s).z = s.z ∧
       (tiles.foldl (grdblend_process_tile ctrl cosF half col) s).w = s.w ∧
       (tiles.foldl (grdblend_process_tile ctrl cosF half col) s).m = 0 ∧
       (tiles.foldl (grdblend_process_tile ctrl cosF half col) s).not_nan = true) := by
  intro tiles
  induction tiles with
  | nil => intro s hm hfg hnn _; exact ⟨rfl, rfl, hm, hnn⟩
  | cons B ts ih =>
      intro s hm hfg hnn hfail
      cases hv : grdblend_val col B with
      | none =>
          rw [List.foldl_cons, process_tile_none _ _ _ _ _ _ hv]
          refine ih s hm hfg hnn fun x hx => hfail x ?_
          simp [grdblend_coveringVals, List.filterMap_cons, hv]
          simpa [grdblend_coveringVals] using hx
      | some v =>
          have hvmem : v ∈ grdblend_coveringVals col (B :: ts) := by
            simp [grdblend_coveringVals, List.filterMap_cons, hv]
          have hstep : grdblend_process_tile ctrl cosF half col s B =
              { s with not_nan := true } := by
            rw [process_tile_some _ _ _ _ _ _ _ hv]
            rcases hs with hs | hs <;>
              cases hmo : ctrl.C_mode <;>
                norm_num [grdblend_accept, hC, hs, hm, hfg, hmo,
                          (hfail v hvmem).1, (hfail v hvmem).2]
          rw [List.foldl_cons, hstep]
          refine ih { s with not_nan := true } hm hfg rfl fun x hx => hfail x ?_
          simp only [grdblend_coveringVals, List.filterMap_cons, hv]
          exact List.mem_cons_of_mem v (by simpa [grdblend_coveringVals] using hx)

theorem sign_loop_state (ctrl : BlendCtrl) (cosF : ℚ → ℚ) (half : ℚ) (col : ℤ)
    (hC : ctrl.C_active = true) (hs : ctrl.C_sign = -1 ∨ ctrl.C_sign = 1) :
    ∀ (tiles : List CTile) (v : ℚ) (vs : List ℚ),
      grdblend_coveringVals col tiles = v :: vs →
      (∀ x ∈ grdblend_coveringVals col tiles,
        (ctrl.C_sign = -1 → 0 < x) ∧ (ctrl.C_sign = 1 → x < 0)) →
      ((grdblend_cell_loop ctrl cosF half col tiles).z = v ∧
       (grdblend_cell_loop ctrl cosF half col tiles).w = 0 ∧
       (grdblend_cell_loop ctrl cosF half col tiles).m = 0 ∧
       (grdblend_cell_loop ctrl cosF half col tiles).not_nan = true) := by
  intro tiles
  unfold grdblend_cell_loop
  induction tiles with
  | nil => intro v vs hcov; simp [grdblend_coveringVals] at hcov
  | cons B ts ih =>
      intro v vs hcov hfail
      cases hv : grdblend_val col B with
      | none =>
          rw [List.foldl_cons, process_tile_none _ _ _ _ _ _ hv]
          refine ih v vs ?_ fun x hx => hfail x ?_
          · simpa [grdblend_coveringVals, List.filterMap_cons, hv] using hcov
          · simp only [grdblend_coveringVals, List.filterMap_cons, hv]
            simpa [grdblend_coveringVals] using hx
      | some v' =>
          have hcov2 := hcov
          simp only [grdblend_coveringVals, List.filterMap_cons, hv] at hcov2
          obtain ⟨rfl, hcv⟩ : v' = v ∧ List.filterMap (grdblend_val col) ts = vs :=
            ⟨List.head_eq_of_cons_eq hcov2, List.tail_eq_of_cons_eq hcov2⟩
          rw [List.foldl_cons, sign_seed ctrl cosF half col _ _ _ hC hs rfl rfl hv]
          have h2 := sign_skip_fold ctrl cosF half col hC hs ts
            { initCState with z := v', not_nan := true, first_grid := false }
            rfl rfl rfl (fun x hx => hfail x (by
              simp only [grdblend_coveringVals, List.filterMap_cons, hv]
              exact List.mem_cons_of_mem v' (by simpa [grdblend_coveringVals] using hx)))
          exact h2

/-- C9: in a clobber mode with an active sign filter, at a cell where some
tile covers with a non-NaN value but every covering value fails the filter
(positive under -C..+n, negative under -C..+p), the first covering value is
used as a seed: the final accumulator holds that value with weight 1 and
contributor count 1, and the default Value output emits it rather than the
no-data sentinel. -/
theorem claim9_sign_seed_fallback (ctrl : BlendCtrl) (cosF : ℚ → ℚ) (half : ℚ) (col : ℤ)
    (tiles : List CTile) (nd : Option ℚ) (v : ℚ) (vs : List ℚ)
    (hC : ctrl.C_active = true) (hs : ctrl.C_sign = -1 ∨ ctrl.C_sign = 1)
    (hW : ctrl.W_active = false) (hZ : ctrl.Z_active = false)
    (hcov : grdblend_coveringVals col tiles = v :: vs)
    (hfail : ∀ x ∈ grdblend_coveringVals col tiles,
      (ctrl.C_sign = -1 → 0 < x) ∧ (ctrl.C_sign = 1 → x < 0)) :
    (grdblend_cell_final ctrl cosF half col tiles).z = v ∧
    (grdblend_cell_final ctrl cosF half col tiles).w = 1 ∧
    (grdblend_cell_final ctrl cosF half col tiles).m = 1 ∧
    grdblend_cell_output ctrl cosF half col tiles nd = some v := by
  have h2 := sign_loop_state ctrl cosF half col hC hs tiles v vs hcov hfail
  have hsne : ctrl.C_sign ≠ 0 := by rcases hs with hs | hs <;> rw [hs] <;> norm_num
  have hfix : grdblend_cell_final ctrl cosF half col tiles =
      { grdblend_cell_loop ctrl cosF half col tiles with m := 1, w := 1 } := by
    unfold grdblend_cell_final
    rw [if_pos ⟨hsne, h2.2.2.1, h2.2.2.2⟩]
  refine ⟨?_, ?_, ?_, ?_⟩
  · rw [hfix]; exact h2.1
  · rw [hfix]
  · rw [hfix]
  · unfold grdblend_cell_output
    rw [hfix]
    simp [h2.1, hW, hZ]

/-- C9 witness: sign filter +p (only nonnegative values accepted), two
covering tiles with values -2 and -4: both fail, the first value -2 is
emitted. -/
theorem claim9_witness :
    grdblend_cell_output ⟨true, ClobberMode.last, 1, false, false, false, 1⟩ (fun _ => 0) 0 0
      [⟨false, false, 0, 0, -1, 1, 0, 0, 1, 1, false, fun _ => some (-2)⟩,
       ⟨false, false, 0, 0, -1, 1, 0, 0, 1, 1, false, fun _ => some (-4)⟩] none = some (-2) :=
  (claim9_sign_seed_fallback ⟨true, ClobberMode.last, 1, false, false, false, 1⟩
    (fun _ => 0) 0 0
    [⟨false, false, 0, 0, -1, 1, 0, 0, 1, 1, false, fun _ => some (-2)⟩,
     ⟨false, false, 0, 0, -1, 1, 0, 0, 1, 1, false, fun _ => some (-4)⟩] none (-2) [-4]
    rfl (Or.inr rfl) rfl rfl
    (by norm_num [grdblend_coveringVals, List.filterMap_cons, List.filterMap_nil,
                  grdblend_val])
    (by
      intro x hx
      norm_num [grdblend_coveringVals, List.filterMap_cons, List.filterMap_nil,
                grdblend_val] at hx
      rcases hx with rfl | rfl <;> norm_num)).2.2.2

/-- C6: a covering tile whose value at the cell is NaN contributes nothing
to the accumulator in any policy (the `continue` at line 1031 fires before
anything is touched); and a cell no tile covers with a non-NaN value is
emitted as the configured no-data value (line 1091). -/
theorem claim6_nan_and_empty (ctrl : BlendCtrl) (cosF : ℚ → ℚ) (half : ℚ) (col : ℤ)
    (nd : Option ℚ) :
    (∀ (s : CState) (B : CTile), B.ignore = false → B.outside = false →
        ¬(col < B.out_i0 ∨ col > B.out_i1) → B.zrow (col - B.out_i0) = none →
        grdblend_process_tile ctrl cosF half col s B = s) ∧
    (∀ tiles : List CTile, grdblend_coveringVals col tiles = [] →
        grdblend_cell_output ctrl cosF half col tiles nd = nd) := by
  constructor
  · intro s B h1 h2 h3 h4
    apply process_tile_none
    simp [grdblend_val, h1, h2, h3, h4]
  · intro tiles hcov
    have hnone : ∀ B ∈ tiles, grdblend_val col B = none := by
      intro B hB
      cases hv : grdblend_val col B with
      | none => rfl
      | some v =>
          exfalso
          have : v ∈ grdblend_coveringVals col tiles := by
            unfold grdblend_coveringVals
            exact List.mem_filterMap.mpr ⟨B, hB, hv⟩
          rw [hcov] at this
          exact List.not_mem_nil v this
    unfold grdblend_cell_output grdblend_cell_final grdblend_cell_loop
    rw [fold_none ctrl cosF half col tiles initCState hnone]
    simp [initCState]

/-- C6 witness: a single covering tile whose node is NaN leaves the
accumulator untouched, and the cell falls back to the no-data value 7. -/
theorem claim6_witness :
    grdblend_process_tile ⟨false, ClobberMode.first, 0, false, false, false, 1⟩ (fun _ => 0) 0 0
      initCState ⟨false, false, 0, 0, -1, 1, 0, 0, 1, 1, false, fun _ => none⟩ = initCState ∧
    grdblend_cell_output ⟨false, ClobberMode.first, 0, false, false, false, 1⟩ (fun _ => 0) 0 0
      [⟨false, false, 0, 0, -1, 1, 0, 0, 1, 1, false, fun _ => none⟩] (some 7) = some 7 :=
  ⟨(claim6_nan_and_empty ⟨false, ClobberMode.first, 0, false, false, false, 1⟩
      (fun _ => 0) 0 0 (some 7)).1 initCState _ rfl rfl (by decide) rfl,
   (claim6_nan_and_empty ⟨false, ClobberMode.first, 0, false, false, false, 1⟩
      (fun _ => 0) 0 0 (some 7)).2 _ (by
        norm_num [grdblend_coveringVals, List.filterMap_cons, List.filterMap_nil,
                  grdblend_val])⟩

/-- C10: in blend mode with Value output, a cell with at least one
contributor but weight sum exactly 0 is emitted as 0 (the `w == 0.0` guard
at line 1074, scaled 0 is still 0) and is still counted by `n_fill++`. -/
theorem claim10_zero_weight_sum (ctrl : BlendCtrl) (cosF : ℚ → ℚ) (half : ℚ) (col : ℤ)
    (tiles : List CTile) (nd : Option ℚ)
    (hC : ctrl.C_active = false) (hW : ctrl.W_active = false)
    (hm : (grdblend_cell_final ctrl cosF half col tiles).m ≠ 0)
    (hw : (grdblend_cell_final ctrl cosF half col tiles).w = 0) :
    grdblend_cell_output ctrl cosF half col tiles nd = some 0 ∧
    grdblend_cell_filled ctrl cosF half col tiles = true := by
  constructor
  · unfold grdblend_cell_output
    simp [hm, hw, hW]
  · simp [grdblend_cell_filled, hm]

/-- C10 witness: one covering tile whose row weight `wt_y` is 0, so m = 1
while the weight sum is 0; the cell emits 0 and counts as filled. -/
theorem claim10_witness :
    grdblend_cell_output ⟨false, ClobberMode.first, 0, false, false, false, 1⟩ (fun _ => 0) 0 0
      [⟨false, false, 0, 0, -1, 1, 0, 0, 0, 1, false, fun _ => some 5⟩] none = some 0 ∧
    grdblend_cell_filled ⟨false, ClobberMode.first, 0, false, false, false, 1⟩ (fun _ => 0) 0 0
      [⟨false, false, 0, 0, -1, 1, 0, 0, 0, 1, false, fun _ => some 5⟩] = true :=
  claim10_zero_weight_sum ⟨false, ClobberMode.first, 0, false, false, false, 1⟩
    (fun _ => 0) 0 0
    [⟨false, false, 0, 0, -1, 1, 0, 0, 0, 1, false, fun _ => some 5⟩] none rfl rfl
    (by norm_num [grdblend_cell_final, grdblend_cell_loop, List.foldl_cons, List.foldl_nil,
                  grdblend_process_tile, grdblend_val, grdblend_accept, grdblend_wt,
                  grdblend_wt_x, initCState])
    (by norm_num [grdblend_cell_final, grdblend_cell_loop, List.foldl_cons, List.foldl_nil,
                  grdblend_process_tile, grdblend_val, grdblend_accept, grdblend_wt,
                  grdblend_wt_x, initCState])

/-- C8 witness: a tile with doubled x increment must be resampled. -/
theorem claim8_witness :
    grdblend_do_sample false ⟨0, 2, 0, 2, 2, 1, 0, 0⟩ ⟨0, 2, 0, 2, 1, 1, 0, 0⟩ &&& 1 ≠ 0 :=
  (claim8_amended false ⟨0, 2, 0, 2, 2, 1, 0, 0⟩ ⟨0, 2, 0, 2, 1, 1, 0, 0⟩).mpr
    (Or.inl (by norm_num))
